import Mathlib

/-!
Shallow embedding of the batch audio-enhancement pipeline of
`src/xtts/clean_audio.py` (class `AudioEnhancer`): the single-file
processor `denoise_and_enhance`, the batch runner `process_directory`,
and the output verifier `verify_output`.

Modelling decisions:
* Audio samples are rationals; a waveform is a `List ℚ`; a loaded file is
  a list of channels together with an integer sample rate.
* The external Resemble-Enhance adapter (`denoise` / `enhance`) is a
  structure of fallible functions (`Except String`), a parameter of the
  whole development; exceptions anywhere in the per-file pipeline are
  `Except.error` values that propagate as Python exceptions do.
* File-system paths are lists of components.  An input file is its
  sub-directory components below the input root, its base name and its
  (possibly unreadable) content, mirroring what `Path.rglob` discovers.
* `process_directory`'s side effects — files written, per-file error
  prints, the created output directory — are made explicit in the
  returned `BatchState`; the returned Python integer is the field
  `successful_count`.
* Calls to the adapter are recorded in a trace (`AdapterCall`), so
  which operation is invoked, how many times and with which arguments
  is part of the semantics.
-/

/-- A mono waveform: a one-dimensional sequence of samples. -/
abbrev Wave := List ℚ

/-- Result of `torchaudio.load`: the channels of the file and its sample
rate; an unreadable or corrupt file is an `Except.error` carrying the
exception message. -/
abbrev LoadResult := Except String (List Wave × ℕ)

/-- One file discovered under the input root: its sub-directory
components relative to the root, its base name (`Path.name`), and the
outcome of loading it. -/
structure FileEntry where
  relPath : List String
  name : String
  content : LoadResult

/-- The external enhancement model adapter (`resemble_enhance`):
`denoise(wav, sr, device)` and
`enhance(wav, sr, device, nfe, solver, lambd, tau)`, both returning a
waveform with a new sample rate, both able to raise. -/
structure Adapter where
  denoise : Wave → ℕ → String → Except String (Wave × ℕ)
  enhance : Wave → ℕ → String → ℤ → String → ℚ → ℚ → Except String (Wave × ℕ)

/-- A recorded invocation of one of the adapter's two operations,
with the exact arguments passed. -/
inductive AdapterCall where
  | denoiseCall : Wave → ℕ → String → AdapterCall
  | enhanceCall : Wave → ℕ → String → ℤ → String → ℚ → ℚ → AdapterCall
deriving DecidableEq

/-- Python's `int()` on a number: truncation toward zero. -/
def pyInt (q : ℚ) : ℤ := if 0 ≤ q then ⌊q⌋ else ⌈q⌉

/-- `dwav.mean(dim=0)`: pointwise average of all channels — sample `i`
of the result is the sum over the channels of their sample `i`, divided
by the number of channels. -/
def meanChannels (chans : List Wave) : Wave :=
  (List.range (chans.headD []).length).map
    (fun i => ((chans.map (fun c => c.getD i 0)).sum) / (chans.length : ℚ))

/-- `AudioEnhancer.denoise_and_enhance` (clean_audio.py lines 22-53):
lower-cases the solver, coerces `nfe` to an integer, derives the blend
weight `lambd` from the `denoising` flag, loads the file, down-mixes to
mono, runs the denoise pass then the enhance pass, and returns both
results tagged with the sample rate; the adapter-call trace is returned
alongside.  Any exception propagates. -/
def denoise_and_enhance (A : Adapter) (device : String) (audio_path : FileEntry)
    (solver : String) (nfe : ℚ) (tau : ℚ) (denoising : Bool) :
    Except String ((ℕ × Wave) × (ℕ × Wave) × List AdapterCall) :=
  let solver := solver.toLower
  let nfe := pyInt nfe
  let lambd : ℚ := if denoising then 9/10 else 1/10
  match audio_path.content with
  | .error e => .error e
  | .ok (dwav0, sr) =>
    let dwav := meanChannels dwav0
    match A.denoise dwav sr device with
    | .error e => .error e
    | .ok (wav_denoised, _new_sr) =>
      match A.enhance dwav sr device nfe solver lambd tau with
      | .error e => .error e
      | .ok (wav_enhanced, new_sr) =>
        .ok ((new_sr, wav_denoised), (new_sr, wav_enhanced),
          [AdapterCall.denoiseCall dwav sr device,
           AdapterCall.enhanceCall dwav sr device nfe solver lambd tau])

/-- The configuration of one batch run: the adapter and device, the
output root, the fallibility of `sf.write` (which paths raise, and with
what message), and the keyword arguments of `process_directory`. -/
structure Config where
  adapter : Adapter
  device : String
  output_path : List String
  writeFails : List String → Option String
  audio_format : String
  solver : String
  nfe : ℚ
  tau : ℚ
  denoising : Bool
  use_enhanced : Bool

/-- One completed `sf.write`: the full output path, the sample rate and
the samples written. -/
structure WriteEvent where
  path : List String
  sample_rate : ℕ
  data : Wave
deriving DecidableEq

/-- The observable outcome of a batch run: the success counter, the
files written (in order), the per-file error messages printed, and the
directories created. -/
structure BatchState where
  successful_count : ℕ
  writes : List WriteEvent
  log : List String
  dirs_created : List (List String)
deriving DecidableEq

/-- Does `name` match the glob pattern `*.{audio_format}` used by
`rglob`, i.e. does the name end in a dot followed by the format?  The
check is on the character sequences of the two strings. -/
def matchesExt (name audio_format : String) : Bool :=
  ("." ++ audio_format).data.isSuffixOf name.data

/-- `sf.write(str(path), ...)`: succeeds, or raises the message that
`writeFails` assigns to the path. -/
def sf_write (writeFails : List String → Option String) (path : List String) :
    Except String Unit :=
  match writeFails path with
  | some e => .error e
  | none => .ok ()

/-- The body of the `try` block of `process_directory` for one file
(clean_audio.py lines 88-106): process the file, select the enhanced or
denoised output, build the flattened output path and write.  Returns
the write performed, or the first exception raised. -/
def filePipeline (cfg : Config) (audio_file : FileEntry) : Except String WriteEvent :=
  match denoise_and_enhance cfg.adapter cfg.device audio_file
      cfg.solver cfg.nfe cfg.tau cfg.denoising with
  | .error e => .error e
  | .ok (denoised_output, enhanced_output, _calls) =>
    let (sample_rate, audio_array) :=
      if cfg.use_enhanced then enhanced_output else denoised_output
    let output_filename := cfg.output_path ++ [audio_file.name]
    match sf_write cfg.writeFails output_filename with
    | .error e => .error e
    | .ok _ => .ok ⟨output_filename, sample_rate, audio_array⟩

/-- One iteration of the per-file loop: on success record the write and
increment the counter; on any exception print the error with the file's
name and continue. -/
def processFile (cfg : Config) (st : BatchState) (audio_file : FileEntry) : BatchState :=
  match filePipeline cfg audio_file with
  | .ok w =>
    { st with successful_count := st.successful_count + 1, writes := st.writes ++ [w] }
  | .error e =>
    { st with log := st.log ++ ["Error processing " ++ audio_file.name ++ ": " ++ e] }

/-- `AudioEnhancer.process_directory` (clean_audio.py lines 55-115):
create the output directory, enumerate the files matching
`*.{audio_format}` under the input root, return immediately when none
match, otherwise run the per-file loop. -/
def process_directory (cfg : Config) (input_files : List FileEntry) : BatchState :=
  let audio_files := input_files.filter (fun f => matchesExt f.name cfg.audio_format)
  if audio_files.isEmpty then
    ⟨0, [], [], [cfg.output_path]⟩
  else
    audio_files.foldl (processFile cfg) ⟨0, [], [], [cfg.output_path]⟩

/-- The files present in an initially fresh output directory after a
sequence of writes: one file per distinct path written (a later write
to the same path overwrites the earlier one). -/
def dirContents (ws : List WriteEvent) : List (List String) :=
  (ws.map WriteEvent.path).dedup

/-- `AudioEnhancer.verify_output` (clean_audio.py lines 117-135): given
the output directory — `none` when it does not exist, otherwise the
paths of the files below it — count the files matching
`*.{audio_format}`; the boolean records whether the missing-directory
warning was printed. -/
def verify_output (output_dir : Option (List (List String))) (audio_format : String) :
    ℕ × Bool :=
  match output_dir with
  | none => (0, true)
  | some files =>
    ((files.filter (fun p => matchesExt (p.getLastD "") audio_format)).length, false)

/-- Pointwise combination of two batch states: counters add, the write,
log and directory lists concatenate. -/
def stateAppend (s t : BatchState) : BatchState :=
  ⟨s.successful_count + t.successful_count, s.writes ++ t.writes,
    s.log ++ t.log, s.dirs_created ++ t.dirs_created⟩

/-- The contribution of a single file to the batch state. -/
def fileDelta (cfg : Config) (f : FileEntry) : BatchState :=
  processFile cfg ⟨0, [], [], []⟩ f

/-- The per-file loop run from the empty state. -/
def runBatch (cfg : Config) (l : List FileEntry) : BatchState :=
  l.foldl (processFile cfg) ⟨0, [], [], []⟩

/-- The successful writes of a list of files, in order. -/
def okWrites (cfg : Config) (l : List FileEntry) : List WriteEvent :=
  l.filterMap (fun f => (filePipeline cfg f).toOption)

/-- A file on which the whole per-file pipeline succeeds. -/
def fileOk (cfg : Config) (f : FileEntry) : Prop :=
  ∃ w, filePipeline cfg f = .ok w

/-! ## Concrete instances used to exercise the theorems -/

/-- A concrete deterministic adapter: both passes return the input
waveform unchanged; the denoise pass reports sample rate 22050 while
the enhance pass reports 44100 (the two rates deliberately differ). -/
def stubAdapter : Adapter where
  denoise := fun w _ _ => .ok (w, 22050)
  enhance := fun w _ _ _ _ _ _ => .ok (w, 44100)

/-- A concrete batch configuration mirroring the script's `CONFIG`
block, with writes that never fail. -/
def stubConfig : Config where
  adapter := stubAdapter
  device := "cpu"
  output_path := ["out"]
  writeFails := fun _ => none
  audio_format := "wav"
  solver := "Midpoint"
  nfe := 64
  tau := 7/10
  denoising := true
  use_enhanced := true

/-- Input `a/x.wav`, readable. -/
def fileA : FileEntry := ⟨["a"], "x.wav", .ok ([[]], 16000)⟩

/-- Input `b/x.wav`, readable, same base name as `fileA`. -/
def fileB : FileEntry := ⟨["b"], "x.wav", .ok ([[]], 16000)⟩

/-- Input `good.wav`, readable. -/
def fileGood : FileEntry := ⟨[], "good.wav", .ok ([[]], 16000)⟩

/-- Input `good2.wav`, readable. -/
def fileGood2 : FileEntry := ⟨[], "good2.wav", .ok ([[]], 22050)⟩

/-- Input `s/stereo.wav`, readable, with two channels. -/
def fileStereo : FileEntry := ⟨["s"], "stereo.wav", .ok ([[], []], 16000)⟩

/-- Input `bad.wav`: loading it raises `corrupt`. -/
def fileBad : FileEntry := ⟨[], "bad.wav", .error "corrupt"⟩

/-- Input `notes.txt`: readable but not matching the `wav` filter. -/
def fileTxt : FileEntry := ⟨[], "notes.txt", .ok ([[]], 16000)⟩

/-! ## Helper lemmas -/

lemma stateAppend_empty_right (s : BatchState) :
    stateAppend s ⟨0, [], [], []⟩ = s := by
  simp [stateAppend]

lemma stateAppend_empty_left (s : BatchState) :
    stateAppend ⟨0, [], [], []⟩ s = s := by
  simp [stateAppend]

lemma stateAppend_assoc (s t u : BatchState) :
    stateAppend (stateAppend s t) u = stateAppend s (stateAppend t u) := by
  simp [stateAppend, Nat.add_assoc]

lemma processFile_eq (cfg : Config) (st : BatchState) (f : FileEntry) :
    processFile cfg st f = stateAppend st (processFile cfg ⟨0, [], [], []⟩ f) := by
  cases h : filePipeline cfg f <;> simp [processFile, stateAppend, h]

lemma foldl_processFile_eq (cfg : Config) (l : List FileEntry) (st : BatchState) :
    l.foldl (processFile cfg) st =
      stateAppend st (l.foldl (processFile cfg) ⟨0, [], [], []⟩) := by
  induction l generalizing st with
  | nil => simp [stateAppend_empty_right]
  | cons f l ih =>
    rw [List.foldl_cons, List.foldl_cons, ih, ih (processFile cfg ⟨0, [], [], []⟩ f),
      processFile_eq, stateAppend_assoc]

lemma runBatch_cons (cfg : Config) (f : FileEntry) (l : List FileEntry) :
    runBatch cfg (f :: l) = stateAppend (fileDelta cfg f) (runBatch cfg l) := by
  rw [runBatch, List.foldl_cons, foldl_processFile_eq]
  rfl

lemma runBatch_append (cfg : Config) (l₁ l₂ : List FileEntry) :
    runBatch cfg (l₁ ++ l₂) = stateAppend (runBatch cfg l₁) (runBatch cfg l₂) := by
  induction l₁ with
  | nil =>
    rw [List.nil_append]
    have h0 : runBatch cfg [] = ⟨0, [], [], []⟩ := rfl
    rw [h0, stateAppend_empty_left]
  | cons f l ih =>
    rw [List.cons_append, runBatch_cons, runBatch_cons, ih, stateAppend_assoc]

lemma fileDelta_ok {cfg : Config} {f : FileEntry} {w : WriteEvent}
    (h : filePipeline cfg f = .ok w) :
    fileDelta cfg f = ⟨1, [w], [], []⟩ := by
  simp [fileDelta, processFile, h]

lemma fileDelta_error {cfg : Config} {f : FileEntry} {e : String}
    (h : filePipeline cfg f = .error e) :
    fileDelta cfg f = ⟨0, [], ["Error processing " ++ f.name ++ ": " ++ e], []⟩ := by
  simp [fileDelta, processFile, h]

lemma runBatch_allOk {cfg : Config} {l : List FileEntry}
    (h : ∀ f ∈ l, fileOk cfg f) :
    runBatch cfg l = ⟨l.length, okWrites cfg l, [], []⟩ := by
  induction l with
  | nil => simp [runBatch, okWrites]
  | cons f l ih =>
    obtain ⟨w, hw⟩ := h f (List.mem_cons_self f l)
    have hcons : okWrites cfg (f :: l) = w :: okWrites cfg l := by
      simp [okWrites, List.filterMap_cons, hw, Except.toOption]
    rw [runBatch_cons, fileDelta_ok hw, ih (fun g hg => h g (List.mem_cons_of_mem f hg)),
      hcons]
    simp [stateAppend, Nat.add_comm]

lemma filePipeline_path {cfg : Config} {f : FileEntry} {w : WriteEvent}
    (h : filePipeline cfg f = .ok w) :
    w.path = cfg.output_path ++ [f.name] := by
  unfold filePipeline at h
  cases hd : denoise_and_enhance cfg.adapter cfg.device f cfg.solver cfg.nfe cfg.tau
      cfg.denoising with
  | error e => rw [hd] at h; exact absurd h (by simp)
  | ok res =>
    obtain ⟨d, e, c⟩ := res
    rw [hd] at h
    simp only at h
    cases hw : sf_write cfg.writeFails (cfg.output_path ++ [f.name]) with
    | error e' => rw [hw] at h; exact absurd h (by simp)
    | ok u => rw [hw] at h; cases h; rfl

lemma okWrites_map_path {cfg : Config} {l : List FileEntry}
    (h : ∀ f ∈ l, fileOk cfg f) :
    (okWrites cfg l).map WriteEvent.path = l.map (fun f => cfg.output_path ++ [f.name]) := by
  induction l with
  | nil => simp [okWrites]
  | cons f l ih =>
    obtain ⟨w, hw⟩ := h f (List.mem_cons_self f l)
    have hcons : okWrites cfg (f :: l) = w :: okWrites cfg l := by
      simp [okWrites, List.filterMap_cons, hw, Except.toOption]
    rw [hcons, List.map_cons, List.map_cons,
      ih (fun g hg => h g (List.mem_cons_of_mem f hg)), filePipeline_path hw]

lemma process_directory_eq (cfg : Config) (files : List FileEntry) :
    process_directory cfg files =
      stateAppend ⟨0, [], [], [cfg.output_path]⟩
        (runBatch cfg (files.filter (fun f => matchesExt f.name cfg.audio_format))) := by
  unfold process_directory
  cases he : (files.filter (fun f => matchesExt f.name cfg.audio_format)).isEmpty with
  | true =>
    rw [List.isEmpty_iff] at he
    simp only [he, List.isEmpty_nil, if_true]
    have h0 : runBatch cfg [] = ⟨0, [], [], []⟩ := rfl
    rw [h0, stateAppend_empty_right]
  | false =>
    simp only [he, Bool.false_eq_true, if_false]
    rw [foldl_processFile_eq]
    rfl

lemma mem_runBatch_writes {cfg : Config} {l : List FileEntry} {w : WriteEvent}
    (h : w ∈ (runBatch cfg l).writes) : ∃ f ∈ l, filePipeline cfg f = .ok w := by
  induction l with
  | nil => simp [runBatch] at h
  | cons f l ih =>
    rw [runBatch_cons] at h
    have h' : w ∈ (fileDelta cfg f).writes ++ (runBatch cfg l).writes := h
    rw [List.mem_append] at h'
    cases h' with
    | inl hw =>
      cases hp : filePipeline cfg f with
      | ok w' =>
        rw [fileDelta_ok hp] at hw
        rw [List.mem_singleton] at hw
        exact ⟨f, List.mem_cons_self f l, hw ▸ hp⟩
      | error e =>
        rw [fileDelta_error hp] at hw
        simp at hw
    | inr hw =>
      obtain ⟨g, hg, hgp⟩ := ih hw
      exact ⟨g, List.mem_cons_of_mem f hg, hgp⟩

lemma dirContents_allOk {cfg : Config} {files : List FileEntry}
    (hok : ∀ f ∈ files.filter (fun g => matchesExt g.name cfg.audio_format), fileOk cfg f)
    (hnd : ((files.filter (fun g => matchesExt g.name cfg.audio_format)).map
      FileEntry.name).Nodup) :
    dirContents (process_directory cfg files).writes =
      (files.filter (fun g => matchesExt g.name cfg.audio_format)).map
        (fun f => cfg.output_path ++ [f.name]) := by
  unfold dirContents
  rw [process_directory_eq, runBatch_allOk hok]
  show ((okWrites cfg _).map WriteEvent.path).dedup = _
  rw [okWrites_map_path hok]
  apply List.dedup_eq_self.mpr
  have hmm : (files.filter (fun g => matchesExt g.name cfg.audio_format)).map
        (fun f => cfg.output_path ++ [f.name])
      = ((files.filter (fun g => matchesExt g.name cfg.audio_format)).map
          FileEntry.name).map (fun n => cfg.output_path ++ [n]) := by
    rw [List.map_map]
    rfl
  rw [hmm]
  refine hnd.map ?_
  intro a b hab
  have h1 : [a] = [b] := List.append_cancel_left hab
  simpa using h1

/-- C1: any exception raised while loading, processing or writing a
single file is caught inside the per-file loop: the failure is logged
with that file's name and the error detail, the file is skipped without
incrementing the success counter, processing continues with the rest,
and a batch with one failing file among `N` reports `N-1` successes
with the other `N-1` outputs written exactly as they would be without
the failing file. -/
theorem C1_per_file_failure_isolated (cfg : Config) (xs ys : List FileEntry)
    (f : FileEntry) (e : String)
    (hgood : ∀ g ∈ xs ++ ys, matchesExt g.name cfg.audio_format = true ∧ fileOk cfg g)
    (hmatch : matchesExt f.name cfg.audio_format = true)
    (hfail : filePipeline cfg f = .error e) :
    ((xs ++ f :: ys).filter (fun g => matchesExt g.name cfg.audio_format)).length
        = (xs ++ ys).length + 1 ∧
    (process_directory cfg (xs ++ f :: ys)).successful_count = (xs ++ ys).length ∧
    (process_directory cfg (xs ++ f :: ys)).writes
        = (process_directory cfg (xs ++ ys)).writes ∧
    ("Error processing " ++ f.name ++ ": " ++ e)
        ∈ (process_directory cfg (xs ++ f :: ys)).log := by
  have hokxs : ∀ g ∈ xs, fileOk cfg g :=
    fun g hg => (hgood g (List.mem_append.mpr (Or.inl hg))).2
  have hokys : ∀ g ∈ ys, fileOk cfg g :=
    fun g hg => (hgood g (List.mem_append.mpr (Or.inr hg))).2
  have hfilter1 : (xs ++ f :: ys).filter (fun g => matchesExt g.name cfg.audio_format)
      = xs ++ f :: ys := by
    apply List.filter_eq_self.mpr
    intro a ha
    rcases List.mem_append.mp ha with ha | ha
    · exact (hgood a (List.mem_append.mpr (Or.inl ha))).1
    · rcases List.mem_cons.mp ha with ha | ha
      · exact ha ▸ hmatch
      · exact (hgood a (List.mem_append.mpr (Or.inr ha))).1
  have hfilter2 : (xs ++ ys).filter (fun g => matchesExt g.name cfg.audio_format)
      = xs ++ ys :=
    List.filter_eq_self.mpr (fun a ha => (hgood a ha).1)
  rw [process_directory_eq, process_directory_eq, hfilter1, hfilter2,
    runBatch_append cfg xs (f :: ys), runBatch_cons, fileDelta_error hfail,
    runBatch_append cfg xs ys, runBatch_allOk hokxs, runBatch_allOk hokys]
  refine ⟨?_, ?_, ?_, ?_⟩ <;> (simp [stateAppend, List.length_append]; try omega)

/-- Witness for C1: among the three discovered files, `bad.wav` fails
to load; the batch reports 2 successes, writes exactly what the
two-file batch writes, and logs the corrupt file by name. -/
theorem C1_per_file_failure_isolated_witness :
    (process_directory stubConfig [fileGood, fileBad, fileGood2]).successful_count = 2 ∧
    (process_directory stubConfig [fileGood, fileBad, fileGood2]).writes
        = (process_directory stubConfig [fileGood, fileGood2]).writes ∧
    "Error processing bad.wav: corrupt"
        ∈ (process_directory stubConfig [fileGood, fileBad, fileGood2]).log := by
  have h := C1_per_file_failure_isolated stubConfig [fileGood] [fileGood2] fileBad "corrupt"
    (by
      intro g hg
      rcases List.mem_append.mp hg with hg | hg <;> rw [List.mem_singleton] at hg <;>
        subst hg
      · exact ⟨rfl, ⟨_, rfl⟩⟩
      · exact ⟨rfl, ⟨_, rfl⟩⟩)
    rfl rfl
  exact ⟨h.2.1, h.2.2.1, h.2.2.2⟩

/-- Counterexample to C2 as stated: the input directory holds two
readable files `a/x.wav` and `b/x.wav` (`N = 2`), every file is
processed and written successfully, and `process_directory` returns 2 —
yet the output directory contains a single file, because both inputs
were flattened onto the same output path. -/
theorem C2_duplicate_basename_counterexample :
    filePipeline stubConfig fileA = .ok ⟨["out", "x.wav"], 44100, []⟩ ∧
    filePipeline stubConfig fileB = .ok ⟨["out", "x.wav"], 44100, []⟩ ∧
    (process_directory stubConfig [fileA, fileB]).successful_count = 2 ∧
    dirContents (process_directory stubConfig [fileA, fileB]).writes
        = [["out", "x.wav"]] :=
  ⟨rfl, rfl, rfl, rfl⟩

/-- C2 (amended): for an input directory whose `N` matching files have
pairwise distinct base names, if every file is processed and written
successfully then `process_directory` returns `N` and the output
directory contains exactly `N` files whose base names are those of the
inputs. -/
theorem C2_all_success_batch (cfg : Config) (files : List FileEntry)
    (hok : ∀ f ∈ files.filter (fun g => matchesExt g.name cfg.audio_format), fileOk cfg f)
    (hnd : ((files.filter (fun g => matchesExt g.name cfg.audio_format)).map
      FileEntry.name).Nodup) :
    (process_directory cfg files).successful_count
        = (files.filter (fun g => matchesExt g.name cfg.audio_format)).length ∧
    dirContents (process_directory cfg files).writes
        = (files.filter (fun g => matchesExt g.name cfg.audio_format)).map
            (fun f => cfg.output_path ++ [f.name]) := by
  constructor
  · rw [process_directory_eq, runBatch_allOk hok]
    simp [stateAppend]
  · exact dirContents_allOk hok hnd

/-- Witness for C2 (amended): a two-file batch with distinct base names
succeeds 2/2 and the output directory holds exactly those two files. -/
theorem C2_all_success_batch_witness :
    (process_directory stubConfig [fileGood, fileGood2]).successful_count = 2 ∧
    dirContents (process_directory stubConfig [fileGood, fileGood2]).writes
        = [["out", "good.wav"], ["out", "good2.wav"]] := by
  have h := C2_all_success_batch stubConfig [fileGood, fileGood2]
    (by
      intro f hf
      rw [show [fileGood, fileGood2].filter
          (fun g => matchesExt g.name stubConfig.audio_format)
          = [fileGood, fileGood2] from rfl] at hf
      rcases List.mem_cons.mp hf with hf | hf
      · subst hf
        exact ⟨_, rfl⟩
      · rw [List.mem_singleton] at hf
        subst hf
        exact ⟨_, rfl⟩)
    (by
      rw [show ([fileGood, fileGood2].filter
          (fun g => matchesExt g.name stubConfig.audio_format)).map FileEntry.name
          = ["good.wav", "good2.wav"] from rfl]
      simp)
  exact h

/-- C3: whenever `denoise_and_enhance` completes, the enhance operation
received exactly the normalized parameters: the lower-cased solver, the
iteration budget coerced to an integer, the blend weight 9/10 when the
denoising flag is true and 1/10 when it is false, and the time
parameter `tau` unchanged. -/
theorem C3_normalized_parameters (A : Adapter) (device : String) (f : FileEntry)
    (solver : String) (nfe tau : ℚ) (denoising : Bool)
    (out : (ℕ × Wave) × (ℕ × Wave) × List AdapterCall)
    (h : denoise_and_enhance A device f solver nfe tau denoising = .ok out) :
    ∃ dwav sr,
      out.2.2 = [AdapterCall.denoiseCall dwav sr device,
        AdapterCall.enhanceCall dwav sr device (pyInt nfe) solver.toLower
          (if denoising then 9/10 else 1/10) tau] := by
  simp only [denoise_and_enhance] at h
  cases hc : f.content with
  | error e =>
    rw [hc] at h
    exact absurd h (by simp)
  | ok p =>
    obtain ⟨chans, sr⟩ := p
    rw [hc] at h
    simp only at h
    cases hd : A.denoise (meanChannels chans) sr device with
    | error e =>
      rw [hd] at h
      exact absurd h (by simp)
    | ok q =>
      obtain ⟨wd, srd⟩ := q
      rw [hd] at h
      simp only at h
      cases he : A.enhance (meanChannels chans) sr device (pyInt nfe) solver.toLower
          (if denoising then 9/10 else 1/10) tau with
      | error e =>
        rw [he] at h
        exact absurd h (by simp)
      | ok r =>
        obtain ⟨we, sre⟩ := r
        rw [he] at h
        simp only [Except.ok.injEq] at h
        exact ⟨meanChannels chans, sr, h ▸ rfl⟩

/-- Witness for C3: the concrete adapter and configuration; the enhance
call in the trace carries the lower-cased solver, the integer-coerced
budget, the denoising-mode blend weight and the unchanged `tau`. -/
theorem C3_normalized_parameters_witness :
    ∃ dwav sr,
      (((44100, ([] : Wave)), ((44100, ([] : Wave)),
        [AdapterCall.denoiseCall [] 16000 "cpu",
         AdapterCall.enhanceCall [] 16000 "cpu" (pyInt 64) "Midpoint".toLower
           (9/10) (7/10)])) :
          (ℕ × Wave) × (ℕ × Wave) × List AdapterCall).2.2
      = [AdapterCall.denoiseCall dwav sr "cpu",
         AdapterCall.enhanceCall dwav sr "cpu" (pyInt 64) "Midpoint".toLower
           (if true then 9/10 else 1/10) (7/10)] :=
  C3_normalized_parameters stubAdapter "cpu" fileGood "Midpoint" 64 (7/10) true _ rfl

/-- C4: for every successfully loaded file, the channels are averaged
into one mono buffer before any model call — each sample of the mono
buffer is the equally-weighted average of the channels' samples — and
the trace holds exactly one denoise call and one enhance call, both on
that same mono buffer. -/
theorem C4_downmix_then_single_calls (A : Adapter) (device : String) (f : FileEntry)
    (solver : String) (nfe tau : ℚ) (denoising : Bool)
    (chans : List Wave) (sr : ℕ)
    (out : (ℕ × Wave) × (ℕ × Wave) × List AdapterCall)
    (hload : f.content = .ok (chans, sr))
    (h : denoise_and_enhance A device f solver nfe tau denoising = .ok out) :
    out.2.2 = [AdapterCall.denoiseCall (meanChannels chans) sr device,
      AdapterCall.enhanceCall (meanChannels chans) sr device (pyInt nfe) solver.toLower
        (if denoising then 9/10 else 1/10) tau] ∧
    ∀ i < (chans.headD []).length,
      (meanChannels chans).getD i 0
        = ((chans.map (fun c => c.getD i 0)).sum) / (chans.length : ℚ) := by
  constructor
  · simp only [denoise_and_enhance, hload] at h
    cases hd : A.denoise (meanChannels chans) sr device with
    | error e =>
      rw [hd] at h
      exact absurd h (by simp)
    | ok q =>
      obtain ⟨wd, srd⟩ := q
      rw [hd] at h
      simp only at h
      cases he : A.enhance (meanChannels chans) sr device (pyInt nfe) solver.toLower
          (if denoising then 9/10 else 1/10) tau with
      | error e =>
        rw [he] at h
        exact absurd h (by simp)
      | ok r =>
        obtain ⟨we, sre⟩ := r
        rw [he] at h
        simp only [Except.ok.injEq] at h
        exact h ▸ rfl
  · have key : ∀ (n : ℕ) (g : ℕ → ℚ) (i : ℕ), i < n →
        ((List.range n).map g).getD i 0 = g i := by
      intro n g i hin
      simp [List.getD, hin]
    intro i hi
    exact key ((chans.headD []).length)
      (fun j => ((chans.map (fun c => c.getD j 0)).sum) / (chans.length : ℚ)) i hi

/-- Witness for C4: a two-channel file; both adapter operations are
invoked once, on the same down-mixed buffer. -/
theorem C4_downmix_then_single_calls_witness :
    (((44100, ([] : Wave)), ((44100, ([] : Wave)),
      [AdapterCall.denoiseCall [] 16000 "cpu",
       AdapterCall.enhanceCall [] 16000 "cpu" (pyInt 64) "Midpoint".toLower
         (9/10) (7/10)])) :
        (ℕ × Wave) × (ℕ × Wave) × List AdapterCall).2.2
      = [AdapterCall.denoiseCall (meanChannels ([[], []] : List Wave)) 16000 "cpu",
         AdapterCall.enhanceCall (meanChannels ([[], []] : List Wave)) 16000 "cpu"
           (pyInt 64) "Midpoint".toLower (if true then 9/10 else 1/10) (7/10)] ∧
    ∀ i < (([[], []] : List Wave).headD []).length,
      (meanChannels ([[], []] : List Wave)).getD i 0
        = ((([[], []] : List Wave).map (fun c => c.getD i 0)).sum)
            / ((([[], []] : List Wave).length) : ℚ) :=
  C4_downmix_then_single_calls stubAdapter "cpu" fileStereo "Midpoint" 64 (7/10) true
    ([[], []] : List Wave) 16000 _ rfl rfl

/-- C5: every file the batch writes goes to
`<output_dir>/<original_file_name>`, using only the base name of some
discovered matching input file; when the input lay in a sub-directory,
the output path is not the mirrored nested path — the input structure
is flattened away. -/
theorem C5_flattened_output_path (cfg : Config) (files : List FileEntry)
    (w : WriteEvent) (hw : w ∈ (process_directory cfg files).writes) :
    ∃ f, f ∈ files ∧ matchesExt f.name cfg.audio_format = true ∧
      filePipeline cfg f = .ok w ∧
      w.path = cfg.output_path ++ [f.name] ∧
      (f.relPath ≠ [] → w.path ≠ cfg.output_path ++ f.relPath ++ [f.name]) := by
  rw [process_directory_eq] at hw
  have hw' : w ∈ (runBatch cfg
      (files.filter (fun g => matchesExt g.name cfg.audio_format))).writes := hw
  obtain ⟨f, hf, hfp⟩ := mem_runBatch_writes hw'
  rw [List.mem_filter] at hf
  refine ⟨f, hf.1, hf.2, hfp, filePipeline_path hfp, ?_⟩
  intro hrel heq
  rw [filePipeline_path hfp] at heq
  have hlen := congrArg List.length heq
  simp [List.length_append] at hlen
  exact hrel hlen

/-- Witness for C5: the file discovered at `a/x.wav` is written to
`out/x.wav`, not to `out/a/x.wav`. -/
theorem C5_flattened_output_path_witness :
    ∃ f, f ∈ [fileA] ∧ matchesExt f.name stubConfig.audio_format = true ∧
      filePipeline stubConfig f = .ok ⟨["out", "x.wav"], 44100, []⟩ ∧
      (⟨["out", "x.wav"], 44100, []⟩ : WriteEvent).path
        = stubConfig.output_path ++ [f.name] ∧
      (f.relPath ≠ [] →
        (⟨["out", "x.wav"], 44100, []⟩ : WriteEvent).path
          ≠ stubConfig.output_path ++ f.relPath ++ [f.name]) :=
  C5_flattened_output_path stubConfig [fileA] ⟨["out", "x.wav"], 44100, []⟩
    (by rw [show (process_directory stubConfig [fileA]).writes
        = [⟨["out", "x.wav"], 44100, []⟩] from rfl]; exact List.mem_singleton.mpr rfl)

/-- C6: when no file under the input root matches the extension filter,
`process_directory` returns 0 with no output file written and no error
logged; its only side effect is the creation of the output directory,
which happens before the enumeration. -/
theorem C6_empty_enumeration (cfg : Config) (files : List FileEntry)
    (h : files.filter (fun g => matchesExt g.name cfg.audio_format) = []) :
    process_directory cfg files = ⟨0, [], [], [cfg.output_path]⟩ := by
  unfold process_directory
  rw [h]
  rfl

/-- Witness for C6: a directory holding only `notes.txt` matches no
`wav` file; the run returns 0, writes nothing, and only creates the
output directory. -/
theorem C6_empty_enumeration_witness :
    process_directory stubConfig [fileTxt] = ⟨0, [], [], [["out"]]⟩ :=
  C6_empty_enumeration stubConfig [fileTxt] rfl

/-- Counterexample to C7 as stated: a failure-free batch over the two
matching files `a/x.wav` and `b/x.wav` (`N = 2`) written into a fresh
output directory; the verifier, run with the same extension filter on
that directory, reports 1, not 2. -/
theorem C7_duplicate_basename_counterexample :
    filePipeline stubConfig fileA = .ok ⟨["out", "x.wav"], 44100, []⟩ ∧
    filePipeline stubConfig fileB = .ok ⟨["out", "x.wav"], 44100, []⟩ ∧
    (verify_output (some (dirContents (process_directory stubConfig [fileA, fileB]).writes))
        stubConfig.audio_format).1 = 1 :=
  ⟨rfl, rfl, rfl⟩

/-- C7 (amended): write-then-count round-trip — for every failure-free
batch of `N` matching input files with pairwise distinct base names,
written into a fresh output directory, the verifier run on that
directory with the same extension filter reports exactly `N`. -/
theorem C7_write_then_count_roundtrip (cfg : Config) (files : List FileEntry)
    (hok : ∀ f ∈ files.filter (fun g => matchesExt g.name cfg.audio_format), fileOk cfg f)
    (hnd : ((files.filter (fun g => matchesExt g.name cfg.audio_format)).map
      FileEntry.name).Nodup) :
    verify_output (some (dirContents (process_directory cfg files).writes))
        cfg.audio_format
      = ((files.filter (fun g => matchesExt g.name cfg.audio_format)).length, false) := by
  rw [dirContents_allOk hok hnd]
  simp only [verify_output]
  have hall : ((files.filter (fun g => matchesExt g.name cfg.audio_format)).map
        (fun f => cfg.output_path ++ [f.name])).filter
        (fun p => matchesExt (p.getLastD "") cfg.audio_format)
      = (files.filter (fun g => matchesExt g.name cfg.audio_format)).map
        (fun f => cfg.output_path ++ [f.name]) := by
    apply List.filter_eq_self.mpr
    intro p hp
    rw [List.mem_map] at hp
    obtain ⟨f, hf, hfp⟩ := hp
    rw [List.mem_filter] at hf
    rw [← hfp, List.getLastD_concat]
    exact hf.2
  rw [hall, List.length_map]

/-- Witness for C7 (amended): the two-file batch with distinct base
names round-trips — the verifier reports exactly 2. -/
theorem C7_write_then_count_roundtrip_witness :
    verify_output
        (some (dirContents (process_directory stubConfig [fileGood, fileGood2]).writes))
        stubConfig.audio_format
      = (([fileGood, fileGood2].filter
          (fun g => matchesExt g.name stubConfig.audio_format)).length, false) := by
  apply C7_write_then_count_roundtrip stubConfig [fileGood, fileGood2]
  · intro f hf
    rw [show [fileGood, fileGood2].filter
        (fun g => matchesExt g.name stubConfig.audio_format)
        = [fileGood, fileGood2] from rfl] at hf
    rcases List.mem_cons.mp hf with hf | hf
    · subst hf
      exact ⟨_, rfl⟩
    · rw [List.mem_singleton] at hf
      subst hf
      exact ⟨_, rfl⟩
  · rw [show ([fileGood, fileGood2].filter
        (fun g => matchesExt g.name stubConfig.audio_format)).map FileEntry.name
        = ["good.wav", "good2.wav"] from rfl]
    simp

/-- C8: the verifier counts, over all files below the given directory,
those matching the extension; when the directory does not exist it
returns zero together with the warning; it is a pure function of the
directory contents, mutating nothing. -/
theorem C8_verifier_contract :
    (∀ fmt : String, verify_output none fmt = (0, true)) ∧
    (∀ (files : List (List String)) (fmt : String),
      (verify_output (some files) fmt).1
          = files.countP (fun p => matchesExt (p.getLastD "") fmt) ∧
      (verify_output (some files) fmt).2 = false) := by
  refine ⟨fun fmt => rfl, fun files fmt => ⟨?_, rfl⟩⟩
  rw [List.countP_eq_length_filter]
  rfl

/-- C9: both returned results are tagged with the sample rate reported
by the enhance operation; the rate the denoise operation reported
(`srD`) is overwritten and appears nowhere in the result, so in
denoised-only mode the file is written with the enhance pass's rate. -/
theorem C9_sample_rate_from_enhance (A : Adapter) (device : String) (f : FileEntry)
    (solver : String) (nfe tau : ℚ) (denoising : Bool)
    (chans : List Wave) (sr : ℕ) (wd : Wave) (srD : ℕ) (we : Wave) (srE : ℕ)
    (out_dir : List String) (wf : List String → Option String) (fmt : String)
    (hload : f.content = .ok (chans, sr))
    (hden : A.denoise (meanChannels chans) sr device = .ok (wd, srD))
    (henh : A.enhance (meanChannels chans) sr device (pyInt nfe) solver.toLower
      (if denoising then 9/10 else 1/10) tau = .ok (we, srE)) :
    denoise_and_enhance A device f solver nfe tau denoising
        = .ok ((srE, wd), (srE, we),
          [AdapterCall.denoiseCall (meanChannels chans) sr device,
           AdapterCall.enhanceCall (meanChannels chans) sr device (pyInt nfe)
             solver.toLower (if denoising then 9/10 else 1/10) tau]) ∧
    (wf (out_dir ++ [f.name]) = none →
      filePipeline ⟨A, device, out_dir, wf, fmt, solver, nfe, tau, denoising, false⟩ f
        = .ok ⟨out_dir ++ [f.name], srE, wd⟩) := by
  have h1 : denoise_and_enhance A device f solver nfe tau denoising
      = .ok ((srE, wd), (srE, we),
        [AdapterCall.denoiseCall (meanChannels chans) sr device,
         AdapterCall.enhanceCall (meanChannels chans) sr device (pyInt nfe)
           solver.toLower (if denoising then 9/10 else 1/10) tau]) := by
    simp only [denoise_and_enhance, hload, hden, henh]
  refine ⟨h1, fun hwf => ?_⟩
  simp only [filePipeline, h1, sf_write, hwf]
  simp

/-- Witness for C9: the concrete adapter's denoise pass reports rate
22050 while its enhance pass reports 44100; both results carry 44100,
and the denoised-only write uses 44100. -/
theorem C9_sample_rate_from_enhance_witness :
    denoise_and_enhance stubAdapter "cpu" fileGood "Midpoint" 64 (7/10) true
        = .ok ((44100, meanChannels ([[]] : List Wave)),
            (44100, meanChannels ([[]] : List Wave)),
          [AdapterCall.denoiseCall (meanChannels ([[]] : List Wave)) 16000 "cpu",
           AdapterCall.enhanceCall (meanChannels ([[]] : List Wave)) 16000 "cpu"
             (pyInt 64) "Midpoint".toLower (if true then 9/10 else 1/10) (7/10)]) ∧
    ((fun _ => none : List String → Option String) (["out"] ++ [fileGood.name]) = none →
      filePipeline
          ⟨stubAdapter, "cpu", ["out"], fun _ => none, "wav", "Midpoint", 64, 7/10,
            true, false⟩ fileGood
        = .ok ⟨["out"] ++ [fileGood.name], 44100, meanChannels ([[]] : List Wave)⟩) :=
  C9_sample_rate_from_enhance stubAdapter "cpu" fileGood "Midpoint" 64 (7/10) true
    ([[]] : List Wave) 16000 (meanChannels ([[]] : List Wave)) 22050
    (meanChannels ([[]] : List Wave)) 44100 ["out"] (fun _ => none) "wav" rfl rfl rfl

/-- C10: two discovered files with the same base name are written to
the same flattened output path, each write incrementing the counter; a
fresh output directory then holds a single file, so the returned
success count strictly exceeds the number of files present. -/
theorem C10_basename_collision_overwrite (cfg : Config) (f₁ f₂ : FileEntry)
    (w₁ w₂ : WriteEvent)
    (hm₁ : matchesExt f₁.name cfg.audio_format = true)
    (hm₂ : matchesExt f₂.name cfg.audio_format = true)
    (hp₁ : filePipeline cfg f₁ = .ok w₁)
    (hp₂ : filePipeline cfg f₂ = .ok w₂)
    (hname : f₁.name = f₂.name) :
    w₁.path = w₂.path ∧
    (process_directory cfg [f₁, f₂]).successful_count = 2 ∧
    (process_directory cfg [f₁, f₂]).writes = [w₁, w₂] ∧
    dirContents (process_directory cfg [f₁, f₂]).writes = [w₁.path] ∧
    (dirContents (process_directory cfg [f₁, f₂]).writes).length
        < (process_directory cfg [f₁, f₂]).successful_count := by
  have hpath : w₁.path = w₂.path := by
    rw [filePipeline_path hp₁, filePipeline_path hp₂, hname]
  have hfil : [f₁, f₂].filter (fun g => matchesExt g.name cfg.audio_format) = [f₁, f₂] := by
    apply List.filter_eq_self.mpr
    intro a ha
    rcases List.mem_cons.mp ha with h | h
    · subst h
      exact hm₁
    · rw [List.mem_singleton] at h
      subst h
      exact hm₂
  have h0 : runBatch cfg [] = ⟨0, [], [], []⟩ := rfl
  have hpd : process_directory cfg [f₁, f₂] = ⟨2, [w₁, w₂], [], [cfg.output_path]⟩ := by
    rw [process_directory_eq, hfil, runBatch_cons, runBatch_cons, fileDelta_ok hp₁,
      fileDelta_ok hp₂, h0]
    simp [stateAppend]
  have hdc : dirContents [w₁, w₂] = [w₁.path] := by
    simp only [dirContents, List.map_cons, List.map_nil]
    rw [hpath]
    simp
  refine ⟨hpath, ?_, ?_, ?_, ?_⟩
  · rw [hpd]
  · rw [hpd]
  · rw [hpd]
    exact hdc
  · rw [hpd]
    rw [show (⟨2, [w₁, w₂], [], [cfg.output_path]⟩ : BatchState).writes = [w₁, w₂] from rfl,
      hdc]
    simp

/-- Witness for C10: the files `a/x.wav` and `b/x.wav` collide on
`out/x.wav`; the batch counts 2 successes while the output directory
holds one file. -/
theorem C10_basename_collision_overwrite_witness :
    (⟨["out", "x.wav"], 44100, []⟩ : WriteEvent).path
        = (⟨["out", "x.wav"], 44100, []⟩ : WriteEvent).path ∧
    (process_directory stubConfig [fileA, fileB]).successful_count = 2 ∧
    (process_directory stubConfig [fileA, fileB]).writes
        = [⟨["out", "x.wav"], 44100, []⟩, ⟨["out", "x.wav"], 44100, []⟩] ∧
    dirContents (process_directory stubConfig [fileA, fileB]).writes
        = [(⟨["out", "x.wav"], 44100, []⟩ : WriteEvent).path] ∧
    (dirContents (process_directory stubConfig [fileA, fileB]).writes).length
        < (process_directory stubConfig [fileA, fileB]).successful_count :=
  C10_basename_collision_overwrite stubConfig fileA fileB _ _ rfl rfl rfl rfl rfl
